import Mathlib

/-!
Verification development for the saucedemo test-automation framework.
JavaScript numbers are modelled as `Option ℚ`, with `none` standing for NaN;
fallible driver calls return `Except DriverError`.  Each definition is a
shallow embedding of the corresponding TypeScript function.
-/

/-- Failure taxonomy of the driver layer and of JavaScript runtime errors. -/
inductive DriverError where
  | elementNotFound
  | elementNotVisible
  | clickFailed
  | notInitialized
  | typeError
  | ioError
deriving DecidableEq, Repr

/-- Decidable equality of `Except` results, by cases on the constructors. -/
instance {ε α : Type} [DecidableEq ε] [DecidableEq α] : DecidableEq (Except ε α) := fun a b =>
  match a, b with
  | .error e, .error f =>
    if h : e = f then .isTrue (by rw [h]) else .isFalse (fun hh => h (Except.error.inj hh))
  | .ok x, .ok y =>
    if h : x = y then .isTrue (by rw [h]) else .isFalse (fun hh => h (Except.ok.inj hh))
  | .error _, .ok _ => .isFalse (fun hh => Except.noConfusion hh)
  | .ok _, .error _ => .isFalse (fun hh => Except.noConfusion hh)

/-- JavaScript number: `none` models NaN, `some q` a finite value. -/
abbrev JsNum := Option ℚ

/-- Embeds the regex replacement `replace(/\s+/g, '-')`: scanning left to
right, a whitespace character that ends a maximal run emits a single hyphen,
a whitespace character followed by more whitespace emits nothing, and any
other character is kept. -/
def productSlugChars : List Char → List Char
  | [] => []
  | c :: cs =>
    if c.isWhitespace then
      match cs with
      | [] => ['-']
      | d :: _ =>
        if d.isWhitespace then productSlugChars cs
        else '-' :: productSlugChars cs
    else c :: productSlugChars cs

/-- ASCII lowercasing, character by character; this is what
`String.toLowerCase` does on the ASCII product names the suite uses. -/
def lowerChars (l : List Char) : List Char := l.map Char.toLower

/-- Embeds `productName.toLowerCase().replace(/\s+/g, '-')`, the id slug the
page objects derive from a product name. -/
def productIdOfName (name : String) : String :=
  ⟨productSlugChars (lowerChars name.data)⟩

/-- Embeds `ProductsPage.addProductToCartByName`: the id of the element the
click is dispatched on. -/
def addProductToCartByName (productName : String) : String :=
  "add-to-cart-" ++ productIdOfName productName

/-- Embeds `ProductsPage.removeProductFromCartByName`: the id of the element
the click is dispatched on. -/
def removeProductFromCartByName (productName : String) : String :=
  "remove-" ++ productIdOfName productName

/-- Embeds `CartPage.removeItemFromCart`: the id of the element the click is
dispatched on. -/
def removeItemFromCart (productName : String) : String :=
  "remove-" ++ productIdOfName productName

/-- Specification-side slug: a state machine that replaces each maximal run
of whitespace with a single hyphen, emitted when the run starts; the flag
records whether the previous character was inside a whitespace run. -/
def collapseWsFrom : Bool → List Char → List Char
  | _, [] => []
  | inRun, c :: cs =>
    if c.isWhitespace then
      if inRun then collapseWsFrom true cs
      else '-' :: collapseWsFrom true cs
    else c :: collapseWsFrom false cs

/-- Specification-side id derivation, following the claim text: lowercase,
then each maximal whitespace run becomes one hyphen. -/
def slugSpecOfName (name : String) : String :=
  ⟨collapseWsFrom false (lowerChars name.data)⟩

/-- Value of a list of decimal digit characters. -/
def digitsToNat (l : List Char) : Nat :=
  l.foldl (fun a c => 10 * a + (c.toNat - 48)) 0

/-- Embeds the JavaScript `parseFloat`: skip leading whitespace, optional
sign, longest prefix of the form `digits`, `digits.digits` or `.digits`;
`none` (NaN) when no digit is consumed.  Exponent suffixes and `Infinity`
are not modelled; no price or summary text in the suite uses them. -/
def jsParseFloat (s : String) : JsNum :=
  let l := s.data.dropWhile Char.isWhitespace
  let signed : Bool × List Char :=
    match l with
    | '-' :: r => (true, r)
    | '+' :: r => (false, r)
    | _ => (false, l)
  let ip := signed.2.takeWhile Char.isDigit
  let rest := signed.2.dropWhile Char.isDigit
  let fp :=
    match rest with
    | '.' :: r => r.takeWhile Char.isDigit
    | _ => []
  if ip.isEmpty && fp.isEmpty then none
  else
    let n : Int := digitsToNat ip * 10 ^ fp.length + digitsToNat fp
    some (mkRat (if signed.1 then -n else n) (10 ^ fp.length))

/-- Embeds the JavaScript `parseInt(s, 10)`: skip leading whitespace,
optional sign, longest prefix of decimal digits; `none` (NaN) when no digit
is consumed. -/
def jsParseInt (s : String) : Option Int :=
  let l := s.data.dropWhile Char.isWhitespace
  let signed : Int × List Char :=
    match l with
    | '-' :: r => (-1, r)
    | '+' :: r => (1, r)
    | _ => (1, l)
  let ds := signed.2.takeWhile Char.isDigit
  if ds.isEmpty then none else some (signed.1 * (digitsToNat ds : Int))

/-- NaN-propagating addition of JavaScript numbers. -/
def jsAdd : JsNum → JsNum → JsNum
  | some a, some b => some (a + b)
  | _, _ => none

/-- NaN-propagating subtraction of JavaScript numbers. -/
def jsSub : JsNum → JsNum → JsNum
  | some a, some b => some (a - b)
  | _, _ => none

/-- NaN-propagating multiplication of JavaScript numbers (0 × NaN is NaN in
JavaScript, so no finite absorption). -/
def jsMul : JsNum → JsNum → JsNum
  | some a, some b => some (a * b)
  | _, _ => none

/-- Embeds `Math.abs(x) < eps`: any comparison against NaN is false. -/
def jsAbsLt (x : JsNum) (eps : ℚ) : Bool :=
  match x with
  | some v => decide (|v| < eps)
  | none => false

/-- Embeds `x > y` on JavaScript numbers: false when either side is NaN. -/
def jsGt : JsNum → JsNum → Bool
  | some a, some b => decide (a > b)
  | _, _ => false

/-- Embeds `x < y` on JavaScript numbers: false when either side is NaN. -/
def jsLt : JsNum → JsNum → Bool
  | some a, some b => decide (a < b)
  | _, _ => false

/-- Removes the first occurrence of a character, as the non-regex
JavaScript `replace('$', '')` does. -/
def removeFirstOcc (target : Char) : List Char → List Char
  | [] => []
  | c :: cs => if c = target then cs else c :: removeFirstOcc target cs

/-- Embeds `priceText.replace('$', '')`. -/
def stripDollar (s : String) : String :=
  ⟨removeFirstOcc '$' s.data⟩

/-- Embeds `text.replace(/[^0-9.]/g, '')`: keep exactly the decimal digits
and the dots, used on the subtotal/tax/total labels before parsing. -/
def cleanMoneyLabel (s : String) : String :=
  ⟨s.data.filter (fun c => c.isDigit || c = '.')⟩

/-- A rendered cart row as the DOM exposes it: each field is the text of a
sub-element, `none` when that sub-element is missing so that the
corresponding `findElement`/`getText` call throws. -/
structure CartRowElem where
  nameText : Option String
  descText : Option String
  priceText : Option String
  quantityText : Option String
deriving DecidableEq, Repr

/-- Mirrors the `CartItem` record of `src/types`: price and quantity are the
JavaScript numbers produced by `parseFloat`/`parseInt`, possibly NaN. -/
structure CartItem where
  name : String
  description : String
  price : JsNum
  quantity : Option Int
deriving DecidableEq, Repr

/-- Mirrors the `OrderSummary` record of `src/types`. -/
structure OrderSummary where
  items : List CartItem
  subtotal : JsNum
  tax : JsNum
  total : JsNum
deriving DecidableEq, Repr

/-- The cart / checkout page state: the cart rows plus the text of the three
summary labels. -/
structure CartPageState where
  rows : List CartRowElem
  subtotalText : String
  taxText : String
  totalText : String

/-- Embeds `BasePage.findElements`: `waitForElement` throws when no element
matches the locator before the timeout, so zero matches is an error; with at
least one match all matching elements are returned. -/
def findElements {α : Type} (elems : List α) : Except DriverError (List α) :=
  if elems.isEmpty then .error .elementNotFound else .ok elems

/-- Modelled from the spec: `findElementsSafe` is called by
`CartPage.getCartItemCount` but its definition is missing from src/ (the
`BasePage` there defines only the throwing `findElements`).  The spec
requires the empty cart to be reported as a count of zero, not as an error,
so the safe variant returns the matching elements and the empty list — never
a failure — when there are none. -/
def findElementsSafe {α : Type} (elems : List α) : List α := elems

/-- The extraction of one cart row, as the body of the `for` loop of
`CartPage.getCartItems` performs it: all four sub-element reads must
succeed, then price and quantity are parsed (`parseFloat` after removing the
dollar sign, `parseInt` base 10), which never throws and may produce NaN. -/
def extractCartRow (r : CartRowElem) : Option CartItem :=
  match r.nameText, r.descText, r.priceText, r.quantityText with
  | some n, some d, some p, some q =>
    some { name := n, description := d,
           price := jsParseFloat (stripDollar p),
           quantity := jsParseInt q }
  | _, _, _, _ => none

/-- Embeds the row loop of `CartPage.getCartItems`: a row whose sub-element
lookup throws is caught and skipped (`continue`), otherwise the parsed item
is pushed. -/
def getCartItemsLoop : List CartRowElem → List CartItem
  | [] => []
  | r :: rs =>
    match r.nameText, r.descText, r.priceText, r.quantityText with
    | some n, some d, some p, some q =>
      { name := n, description := d,
        price := jsParseFloat (stripDollar p),
        quantity := jsParseInt q } :: getCartItemsLoop rs
    | _, _, _, _ => getCartItemsLoop rs

/-- Embeds `CartPage.getCartItems`: `findElements` on the `.cart_item`
locator (an error when no row exists), then the per-row loop. -/
def getCartItems (rows : List CartRowElem) : Except DriverError (List CartItem) :=
  match findElements rows with
  | .error e => .error e
  | .ok es => .ok (getCartItemsLoop es)

/-- Embeds `CartPage.getCartItemCount` (the revision in `CartPage.ts`): the
number of elements returned by `findElementsSafe` on the `.cart_item`
locator. -/
def getCartItemCount (pg : CartPageState) : Nat :=
  (findElementsSafe pg.rows).length

/-- Embeds `CartPage.isCartEmpty`: the count compared with zero. -/
def isCartEmpty (pg : CartPageState) : Bool :=
  getCartItemCount pg == 0

/-- Embeds `CartPage.getOrderSummary`: the cart items plus the three summary
labels, each stripped of every character other than digits and dots and then
parsed with `parseFloat`. -/
def getOrderSummary (pg : CartPageState) : Except DriverError OrderSummary :=
  match getCartItems pg.rows with
  | .error e => .error e
  | .ok items =>
    .ok { items := items,
          subtotal := jsParseFloat (cleanMoneyLabel pg.subtotalText),
          tax := jsParseFloat (cleanMoneyLabel pg.taxText),
          total := jsParseFloat (cleanMoneyLabel pg.totalText) }

/-- The summand `item.price * item.quantity` of the subtotal recomputation. -/
def itemTotal (it : CartItem) : JsNum :=
  jsMul it.price (it.quantity.map (fun q => (q : ℚ)))

/-- Embeds `summary.items.reduce((sum, item) => sum + item.price * item.quantity, 0)`. -/
def expectedSubtotalOf (items : List CartItem) : JsNum :=
  items.foldl (fun acc it => jsAdd acc (itemTotal it)) (some 0)

/-- Embeds `CartPage.verifyOrderCalculations`: recompute the subtotal from
the items and compare subtotal and total against the parsed labels with the
0.01 tolerance. -/
def verifyOrderCalculations (pg : CartPageState) : Except DriverError Bool :=
  match getOrderSummary pg with
  | .error e => .error e
  | .ok summary =>
    let expectedSubtotal := expectedSubtotalOf summary.items
    let calculatedTotal := jsAdd summary.subtotal summary.tax
    let subtotalMatch := jsAbsLt (jsSub summary.subtotal expectedSubtotal) (1 / 100)
    let totalMatch := jsAbsLt (jsSub summary.total calculatedTotal) (1 / 100)
    .ok (subtotalMatch && totalMatch)

/-- The environment of one existence probe: the outcome of the
`findElement` wait and, per located element, the outcome of the underlying
`isDisplayed()` / `isEnabled()` browser calls. -/
structure ProbeEnv (α : Type) where
  find : Except DriverError α
  displayedCheck : α → Except DriverError Bool
  enabledCheck : α → Except DriverError Bool

/-- Embeds `BasePage.isElementDisplayed`: the whole find-then-probe sequence
runs inside a `try`, and any failure is caught and turned into `false`. -/
def isElementDisplayed {α : Type} (env : ProbeEnv α) : Except DriverError Bool :=
  match env.find with
  | .error _ => .ok false
  | .ok e =>
    match env.displayedCheck e with
    | .error _ => .ok false
    | .ok b => .ok b

/-- Embeds `BasePage.isElementEnabled`: same catch-all structure as the
displayed probe. -/
def isElementEnabled {α : Type} (env : ProbeEnv α) : Except DriverError Bool :=
  match env.find with
  | .error _ => .ok false
  | .ok e =>
    match env.enabledCheck e with
    | .error _ => .ok false
    | .ok b => .ok b

/-- The cart badge as `ProductsPage.getCartItemCount` observes it: the
boolean result of the (never-throwing) displayed probe, and the outcome of
the subsequent `getElementText` read. -/
structure CartBadgeView where
  displayed : Bool
  textRead : Except DriverError String

/-- Embeds `ProductsPage.getCartItemCount`: when the badge is displayed its
text is read and parsed with `parseInt(count, 10)`; when it is not, 0 is
returned, and any failure inside the `try` is caught and also yields 0. -/
def productsGetCartItemCount (badge : CartBadgeView) : Option Int :=
  if badge.displayed then
    match badge.textRead with
    | .ok t => jsParseInt t
    | .error _ => some 0
  else some 0

/-- An opaque-to-the-manager browser session handle. -/
structure WebDriver where
  sessionId : Nat
deriving DecidableEq, Repr

/-- The `WebDriverManager` singleton state: the stored handle, `null` when
no session is live. -/
structure ManagerState where
  driver : Option WebDriver
deriving DecidableEq, Repr

/-- The manager state before any `createDriver` call. -/
def freshManagerState : ManagerState := ⟨none⟩

/-- Embeds `WebDriverManager.createDriver`: the freshly built session is
stored as the live handle and returned. -/
def createDriver (built : WebDriver) (_s : ManagerState) : WebDriver × ManagerState :=
  (built, ⟨some built⟩)

/-- Embeds `WebDriverManager.quitDriver`: quit errors are swallowed and the
`finally` block always clears the handle; on a cleared state it is a no-op. -/
def quitDriver (_s : ManagerState) : ManagerState := ⟨none⟩

/-- Embeds `WebDriverManager.getDriver`: throws the not-initialized error
when no handle is stored, otherwise returns the stored handle. -/
def getDriver (s : ManagerState) : Except DriverError WebDriver :=
  match s.driver with
  | some d => .ok d
  | none => .error .notInitialized

/-- A rendered product row of the inventory page, field text `none` when the
sub-element is missing. -/
structure ProductRowElem where
  nameText : Option String
  descText : Option String
  priceText : Option String
deriving DecidableEq, Repr

/-- Mirrors the `Product` record of `src/types`. -/
structure Product where
  name : String
  description : String
  price : JsNum
  priceText : String
deriving DecidableEq, Repr

/-- Embeds the row loop of `ProductsPage.getAllProducts`: a row whose
sub-element lookup throws is caught and skipped, otherwise the product is
pushed with its price parsed by `parseFloat` after removing the dollar
sign. -/
def getAllProductsLoop : List ProductRowElem → List Product
  | [] => []
  | r :: rs =>
    match r.nameText, r.descText, r.priceText with
    | some n, some d, some p =>
      { name := n, description := d, priceText := p,
        price := jsParseFloat (stripDollar p) } :: getAllProductsLoop rs
    | _, _, _ => getAllProductsLoop rs

/-- Embeds `ProductsPage.getAllProducts`. -/
def getAllProducts (rows : List ProductRowElem) : Except DriverError (List Product) :=
  match findElements rows with
  | .error e => .error e
  | .ok es => .ok (getAllProductsLoop es)

/-- Embeds `Array.prototype.reduce` with no initial value: a `TypeError` on
the empty array, otherwise a left fold whose accumulator starts at the first
element. -/
def jsReduceNoInit {α : Type} (f : α → α → α) : List α → Except DriverError α
  | [] => .error .typeError
  | x :: xs => .ok (xs.foldl f x)

/-- The reduce body of `getMostExpensiveProduct`:
`product.price > max.price ? product : max`. -/
def pickMostExpensive (products : List Product) : Except DriverError Product :=
  jsReduceNoInit (fun best p => if jsGt p.price best.price then p else best) products

/-- The reduce body of `getLeastExpensiveProduct`:
`product.price < min.price ? product : min`. -/
def pickLeastExpensive (products : List Product) : Except DriverError Product :=
  jsReduceNoInit (fun best p => if jsLt p.price best.price then p else best) products

/-- Embeds `ProductsPage.getMostExpensiveProduct`. -/
def getMostExpensiveProduct (rows : List ProductRowElem) : Except DriverError Product :=
  match getAllProducts rows with
  | .error e => .error e
  | .ok products => pickMostExpensive products

/-- Embeds `ProductsPage.getLeastExpensiveProduct`. -/
def getLeastExpensiveProduct (rows : List ProductRowElem) : Except DriverError Product :=
  match getAllProducts rows with
  | .error e => .error e
  | .ok products => pickLeastExpensive products

/-- The status union of the `TestResult` record: exactly the three string
literals of the TypeScript union type. -/
inductive TestStatus where
  | passed
  | failed
  | skipped
deriving DecidableEq, Repr

/-- Mirrors the `TestResult` record of `src/types`; duration in whole
milliseconds. -/
structure TestResult where
  suiteName : String
  testName : String
  status : TestStatus
  duration : Nat
  error : Option String
  screenshot : Option String
deriving DecidableEq, Repr

/-- The environment descriptor stamped into a report. -/
structure EnvironmentInfo where
  browser : String
  platform : String
  nodeVersion : String
deriving DecidableEq, Repr

/-- Mirrors the `ReportData` record of `src/types`. -/
structure ReportData where
  timestamp : String
  totalTests : Nat
  passed : Nat
  failed : Nat
  skipped : Nat
  duration : Nat
  testResults : List TestResult
  environment : EnvironmentInfo
deriving Repr

/-- Embeds `ReportGenerator.prepareReportData`: each count filters the
results on one status literal; timestamp and environment are read from the
clock and the process and appear here as arguments. -/
def prepareReportData (timestamp : String) (environment : EnvironmentInfo)
    (testResults : List TestResult) (duration : Nat) : ReportData :=
  { timestamp := timestamp,
    totalTests := testResults.length,
    passed := (testResults.filter (fun t => t.status == TestStatus.passed)).length,
    failed := (testResults.filter (fun t => t.status == TestStatus.failed)).length,
    skipped := (testResults.filter (fun t => t.status == TestStatus.skipped)).length,
    duration := duration,
    testResults := testResults,
    environment := environment }

/-- The apostrophe character, written by code point to keep it out of
character-literal position. -/
def apos : Char := Char.ofNat 39

/-- The replacement map of `ReportGenerator.escapeHtml`: defined exactly on
the five characters of the regex class `[&<>"']`. -/
def htmlEscapeMap (c : Char) : Option String :=
  if c = '&' then some "&amp;"
  else if c = '<' then some "&lt;"
  else if c = '>' then some "&gt;"
  else if c = '"' then some "&quot;"
  else if c = apos then some "&#039;"
  else none

/-- Embeds `text.replace(/[&<>"']/g, m => map[m])`: each character matched
by the class is replaced by its map entry, every other character is copied
through. -/
def escapeHtmlChars : List Char → List Char
  | [] => []
  | c :: cs =>
    match htmlEscapeMap c with
    | some rep => rep.data ++ escapeHtmlChars cs
    | none => c :: escapeHtmlChars cs

/-- Embeds `ReportGenerator.escapeHtml`. -/
def escapeHtml (text : String) : String := ⟨escapeHtmlChars text.data⟩

/-- Specification-side per-character entity, following the claim text: the
five listed characters become their entities, every other character is left
unaltered. -/
def htmlEntityOfSpec (c : Char) : String :=
  if c = '&' then "&amp;"
  else if c = '<' then "&lt;"
  else if c = '>' then "&gt;"
  else if c = '"' then "&quot;"
  else if c = apos then "&#039;"
  else String.singleton c

/-- The status literal as interpolated into the report. -/
def statusText : TestStatus → String
  | .passed => "passed"
  | .failed => "failed"
  | .skipped => "skipped"

/-- The filesystem as `buildTestCards` touches it: `existsSync` on the
screenshot path and `readFileSync(..., 'base64')`, which may throw. -/
structure FsEnv where
  screenshotExists : String → Bool
  readScreenshotBase64 : String → Except DriverError String

/-- The error block of one test card: present exactly when the test carries
an error text, which is HTML-escaped. -/
def errorDetail (t : TestResult) : String :=
  match t.error with
  | some e => "<div class=\"error-message\">" ++ escapeHtml e ++ "</div>"
  | none => ""

/-- The screenshot block of one test card: inlined as a data URI when the
file exists and reads, a placeholder note when the read throws, empty when
the path is absent or the file does not exist. -/
def screenshotDetail (env : FsEnv) (t : TestResult) : String :=
  match t.screenshot with
  | none => ""
  | some p =>
    if env.screenshotExists p then
      match env.readScreenshotBase64 p with
      | .ok b64 =>
        "<img src=\"data:image/png;base64," ++ b64 ++ "\" alt=\"Screenshot\" class=\"screenshot\">"
      | .error _ => "<p>Screenshot unavailable</p>"
    else ""

/-- The `detailsContent` accumulator of `buildTestCards`. -/
def detailsContent (env : FsEnv) (t : TestResult) : String :=
  errorDetail t ++ screenshotDetail env t

/-- The card template up to the interpolated test name. -/
def cardHead : String :=
  "\n        <div class=\"test-card\">\n            <div class=\"test-header\">\n                <div class=\"test-info\">\n                    <div class=\"test-name\">"

/-- The card template between the test name and the suite name. -/
def cardBetweenNameSuite : String :=
  "</div>\n                    <div class=\"test-suite\">"

/-- The card template from the suite name to the details block: status badge
and duration. -/
def cardMid (t : TestResult) : String :=
  "</div>\n                </div>\n                <div style=\"display: flex; align-items: center;\">\n                    <span class=\"test-status status-" ++
    statusText t.status ++ "\">" ++ statusText t.status ++
    "</span>\n                    <span class=\"test-duration\">" ++
    toString t.duration ++ "ms</span>\n                </div>\n            </div>\n            "

/-- The closing part of the card template. -/
def cardTail : String := "\n        </div>\n      "

/-- Embeds the per-test template of `ReportGenerator.buildTestCards`: name,
suite and error text are interpolated only through `escapeHtml`, and the
details block is emitted only when its content is non-empty. -/
def buildTestCard (env : FsEnv) (t : TestResult) : String :=
  cardHead ++ escapeHtml t.testName ++ cardBetweenNameSuite ++ escapeHtml t.suiteName ++
    cardMid t ++
    (if detailsContent env t = "" then ""
     else "<div class=\"test-details\">" ++ detailsContent env t ++ "</div>") ++
    cardTail

/-- Embeds `ReportGenerator.buildTestCards`: the cards joined with the empty
separator. -/
def buildTestCards (env : FsEnv) (testResults : List TestResult) : String :=
  String.join (testResults.map (buildTestCard env))

/-- An empty cart page, the C1 scenario. -/
def emptyCartPage : CartPageState := ⟨[], "", "", ""⟩

/-- A fully parseable cart row: backpack, 10 dollars, quantity 2. -/
def c2Row : CartRowElem :=
  ⟨some "Sauce Labs Backpack", some "carry.allTheThings()", some "$10.00", some "2"⟩

/-- A checkout page whose labels agree with the recomputed subtotal. -/
def c2Page : CartPageState :=
  ⟨[c2Row], "Item total: $20.00", "Tax: $1.60", "Total: $21.60"⟩

/-- The order summary the code parses out of `c2Page`. -/
def c2Summary : OrderSummary :=
  ⟨[⟨"Sauce Labs Backpack", "carry.allTheThings()", some (mkRat 1000 100), some 2⟩],
    some (mkRat 2000 100), some (mkRat 160 100), some (mkRat 2160 100)⟩

/-- A cart row every field of which extracts and parses. -/
def c5GoodRow : CartRowElem :=
  ⟨some "Sauce Labs Backpack", some "carry.allTheThings()", some "$29.99", some "1"⟩

/-- A cart row whose sub-elements all extract but whose price and quantity
texts do not parse as numbers. -/
def c5BadRow : CartRowElem :=
  ⟨some "Sauce Labs Onesie", some "rib snap infant onesie", some "N/A", some "x"⟩

/-- A probe environment whose element lookup times out. -/
def probeFailEnv : ProbeEnv Unit :=
  ⟨.error .elementNotFound, fun _ => .ok true, fun _ => .ok true⟩

/-- A displayed cart badge reading "3". -/
def badgeShown : CartBadgeView := ⟨true, .ok "3"⟩

/-- An absent cart badge: not displayed, text read would fail. -/
def badgeAbsent : CartBadgeView := ⟨false, .error .elementNotFound⟩

/-- A concrete session handle. -/
def sessionA : WebDriver := ⟨1⟩

/-- Inventory products with a duplicated top price, to exercise the
first-occurrence tie-break. -/
def prodBikeLight : Product :=
  ⟨"Sauce Labs Bike Light", "water-resistant", some (mkRat 999 100), "$9.99"⟩

/-- A top-priced product appearing before its price twin. -/
def prodJacket : Product :=
  ⟨"Sauce Labs Fleece Jacket", "midweight quarter-zip", some (mkRat 4999 100), "$49.99"⟩

/-- A second product at the same top price. -/
def prodJacketTwin : Product :=
  ⟨"Sauce Labs Fleece Jacket Twin", "same price", some (mkRat 4999 100), "$49.99"⟩

/-- A mid-priced product. -/
def prodBackpack : Product :=
  ⟨"Sauce Labs Backpack", "carry.allTheThings()", some (mkRat 2999 100), "$29.99"⟩

/-- The product list used by the C8 witness. -/
def wProducts : List Product :=
  [prodBikeLight, prodJacket, prodJacketTwin, prodBackpack]

/-- A filesystem with no readable screenshots. -/
def wFsEnv : FsEnv := ⟨fun _ => false, fun _ => .error .ioError⟩

/-- A failed test whose name, suite and error text carry every character the
escaper rewrites. -/
def wTest : TestResult :=
  ⟨"Login & Cart <Suite>", "rejects \"locked\" user", .failed, 120,
    some "expected <ok> & got \"err\"", none⟩

/-- The accumulator run of the max reduce: the fold of
`(max, product) => product.price > max.price ? product : max` over the tail,
started at the first element. -/
def reduceMaxAcc (acc : Product) (xs : List Product) : Product :=
  xs.foldl (fun best p => if jsGt p.price best.price then p else best) acc

/-- The accumulator run of the min reduce, mirroring `reduceMaxAcc`. -/
def reduceMinAcc (acc : Product) (xs : List Product) : Product :=
  xs.foldl (fun best p => if jsLt p.price best.price then p else best) acc

theorem slug_cons_nonws (c : Char) (cs : List Char) (h : c.isWhitespace = false) :
    productSlugChars (c :: cs) = c :: productSlugChars cs := by
  simp [productSlugChars, h]

theorem slug_ws_last (c : Char) (h : c.isWhitespace = true) :
    productSlugChars [c] = ['-'] := by
  simp [productSlugChars, h]

theorem slug_ws_ws (c d : Char) (cs : List Char) (hc : c.isWhitespace = true)
    (hd : d.isWhitespace = true) :
    productSlugChars (c :: d :: cs) = productSlugChars (d :: cs) := by
  simp [productSlugChars, hc, hd]

theorem slug_ws_nonws (c d : Char) (cs : List Char) (hc : c.isWhitespace = true)
    (hd : d.isWhitespace = false) :
    productSlugChars (c :: d :: cs) = '-' :: productSlugChars (d :: cs) := by
  simp [productSlugChars, hc, hd]

theorem productSlugChars_eq_collapse (l : List Char) :
    productSlugChars l = collapseWsFrom false l ∧
    (∀ c cs, l = c :: cs → c.isWhitespace = true →
      productSlugChars l = '-' :: collapseWsFrom true l) := by
  induction l with
  | nil => exact ⟨rfl, by intro c cs h; cases h⟩
  | cons c cs ih =>
    by_cases hc : c.isWhitespace
    · have hmain : productSlugChars (c :: cs) = collapseWsFrom false (c :: cs) := by
        cases cs with
        | nil => simp [slug_ws_last c hc, collapseWsFrom, hc]
        | cons d rest =>
          by_cases hd : d.isWhitespace
          · rw [slug_ws_ws c d rest hc hd, ih.2 d rest rfl hd]
            simp [collapseWsFrom, hc, hd]
          · rw [slug_ws_nonws c d rest hc (by simpa using hd), ih.1]
            simp [collapseWsFrom, hc, hd]
      refine ⟨hmain, ?_⟩
      intro c' cs' h _
      cases h
      rw [hmain]
      simp [collapseWsFrom, hc]
    · refine ⟨?_, ?_⟩
      · rw [slug_cons_nonws c cs (by simpa using hc), ih.1]
        simp [collapseWsFrom, hc]
      · intro c' cs' h hws
        cases h
        simp [hws] at hc

/-- Claim C3: for every product name, `addProductToCartByName`,
`removeProductFromCartByName` and `removeItemFromCart` derive the clicked
element id deterministically from the name — lowercase it, replace each
maximal whitespace run with one hyphen — and prefix `add-to-cart-`
respectively `remove-`; the click goes to exactly that id. -/
theorem addRemove_locator_derivation (name : String) :
    addProductToCartByName name = "add-to-cart-" ++ slugSpecOfName name ∧
    removeProductFromCartByName name = "remove-" ++ slugSpecOfName name ∧
    removeItemFromCart name = "remove-" ++ slugSpecOfName name := by
  have h : productIdOfName name = slugSpecOfName name := by
    unfold productIdOfName slugSpecOfName
    rw [(productSlugChars_eq_collapse (lowerChars name.data)).1]
  exact ⟨by rw [addProductToCartByName, h],
         by rw [removeProductFromCartByName, h],
         by rw [removeItemFromCart, h]⟩

example : productIdOfName "Sauce Labs Backpack" = "sauce-labs-backpack" := by decide
example : addProductToCartByName "Sauce  Labs\tBike Light" = "add-to-cart-sauce-labs-bike-light" := by decide

/-- Claim C1: on a freshly loaded cart page with no products in the cart,
`getCartItemCount` returns 0 and `isCartEmpty` returns true — the empty cart
is reported as a count of zero, not as an error. -/
theorem emptyCart_reports_zero (pg : CartPageState) (h : pg.rows = []) :
    getCartItemCount pg = 0 ∧ isCartEmpty pg = true := by
  simp [getCartItemCount, isCartEmpty, findElementsSafe, h]

theorem emptyCart_reports_zero_witness :
    getCartItemCount emptyCartPage = 0 ∧ isCartEmpty emptyCartPage = true :=
  emptyCart_reports_zero emptyCartPage rfl

/-- Claim C4: for every probe environment, `isElementDisplayed` and
`isElementEnabled` never propagate a failure: they always return an `ok`
boolean, and whenever the element lookup or the underlying browser call
fails they return false. -/
theorem probes_never_throw {α : Type} (env : ProbeEnv α) :
    (∃ b, isElementDisplayed env = .ok b) ∧
    (∃ b, isElementEnabled env = .ok b) ∧
    (∀ err, env.find = .error err →
      isElementDisplayed env = .ok false ∧ isElementEnabled env = .ok false) ∧
    (∀ e err, env.find = .ok e → env.displayedCheck e = .error err →
      isElementDisplayed env = .ok false) ∧
    (∀ e err, env.find = .ok e → env.enabledCheck e = .error err →
      isElementEnabled env = .ok false) := by
  refine ⟨?_, ?_, ?_, ?_, ?_⟩
  · cases hf : env.find with
    | error err => exact ⟨false, by simp [isElementDisplayed, hf]⟩
    | ok e =>
      cases hd : env.displayedCheck e with
      | error err => exact ⟨false, by simp [isElementDisplayed, hf, hd]⟩
      | ok b => exact ⟨b, by simp [isElementDisplayed, hf, hd]⟩
  · cases hf : env.find with
    | error err => exact ⟨false, by simp [isElementEnabled, hf]⟩
    | ok e =>
      cases hd : env.enabledCheck e with
      | error err => exact ⟨false, by simp [isElementEnabled, hf, hd]⟩
      | ok b => exact ⟨b, by simp [isElementEnabled, hf, hd]⟩
  · intro err hf
    exact ⟨by simp [isElementDisplayed, hf], by simp [isElementEnabled, hf]⟩
  · intro e err hf hd
    simp [isElementDisplayed, hf, hd]
  · intro e err hf hd
    simp [isElementEnabled, hf, hd]

theorem probes_never_throw_witness :
    isElementDisplayed probeFailEnv = .ok false ∧
    isElementEnabled probeFailEnv = .ok false :=
  (probes_never_throw probeFailEnv).2.2.1 .elementNotFound rfl

/-- Claim C6: `ProductsPage.getCartItemCount` parses the badge text with
base-10 `parseInt` and returns the result when the badge is displayed;
whenever the badge is absent or the text read fails it returns 0 instead of
raising an error. -/
theorem badgeCount_parses_or_zero (badge : CartBadgeView) :
    (∀ t, badge.displayed = true → badge.textRead = .ok t →
      productsGetCartItemCount badge = jsParseInt t) ∧
    (badge.displayed = false → productsGetCartItemCount badge = some 0) ∧
    (∀ err, badge.textRead = .error err → productsGetCartItemCount badge = some 0) := by
  refine ⟨?_, ?_, ?_⟩
  · intro t hdisp htext
    simp [productsGetCartItemCount, hdisp, htext]
  · intro hdisp
    simp [productsGetCartItemCount, hdisp]
  · intro err htext
    cases hdisp : badge.displayed with
    | false => simp [productsGetCartItemCount, hdisp]
    | true => simp [productsGetCartItemCount, hdisp, htext]

theorem badgeCount_parses_or_zero_witness :
    productsGetCartItemCount badgeShown = some 3 ∧
    productsGetCartItemCount badgeAbsent = some 0 := by
  constructor
  · rw [(badgeCount_parses_or_zero badgeShown).1 "3" rfl rfl]
    decide
  · exact (badgeCount_parses_or_zero badgeAbsent).2.1 rfl

/-- Claim C7: `WebDriverManager.getDriver` fails with the not-initialized
error exactly when no live session exists — before any `createDriver` call
or after `quitDriver` cleared the handle — and returns the stored handle
unchanged when a session is live. -/
theorem getDriver_notInitialized_iff (s : ManagerState) :
    (getDriver s = .error .notInitialized ↔ s.driver = none) ∧
    (∀ d, s.driver = some d → getDriver s = .ok d) ∧
    getDriver freshManagerState = .error .notInitialized ∧
    getDriver (quitDriver s) = .error .notInitialized ∧
    (∀ built, getDriver (createDriver built s).2 = .ok (createDriver built s).1) := by
  refine ⟨?_, ?_, rfl, rfl, fun built => rfl⟩
  · cases hd : s.driver with
    | none => simp [getDriver, hd]
    | some d => simp [getDriver, hd]
  · intro d hd
    simp [getDriver, hd]

theorem getDriver_notInitialized_iff_witness :
    getDriver ⟨some sessionA⟩ = .ok sessionA ∧
    getDriver (quitDriver ⟨some sessionA⟩) = .error .notInitialized :=
  ⟨(getDriver_notInitialized_iff ⟨some sessionA⟩).2.1 sessionA rfl,
   (getDriver_notInitialized_iff ⟨some sessionA⟩).2.2.2.1⟩

theorem statusCounts_sum (l : List TestResult) :
    (l.filter (fun t => t.status == TestStatus.passed)).length +
      (l.filter (fun t => t.status == TestStatus.failed)).length +
      (l.filter (fun t => t.status == TestStatus.skipped)).length = l.length := by
  induction l with
  | nil => rfl
  | cons t ts ih =>
    cases h : t.status <;>
      simp [List.filter_cons, h, beq_iff_eq] <;> omega

/-- Claim C9: for every result list and duration, `prepareReportData`
reports `totalTests` equal to the length of the input and the three status
counts partition it: `passed + failed + skipped = totalTests`. -/
theorem prepareReportData_partitions (timestamp : String) (environment : EnvironmentInfo)
    (testResults : List TestResult) (duration : Nat) :
    (prepareReportData timestamp environment testResults duration).totalTests =
      testResults.length ∧
    (prepareReportData timestamp environment testResults duration).passed +
      (prepareReportData timestamp environment testResults duration).failed +
      (prepareReportData timestamp environment testResults duration).skipped =
      (prepareReportData timestamp environment testResults duration).totalTests := by
  exact ⟨rfl, statusCounts_sum testResults⟩

theorem getCartItemsLoop_eq_filterMap (rows : List CartRowElem) :
    getCartItemsLoop rows = rows.filterMap extractCartRow := by
  induction rows with
  | nil => rfl
  | cons r rs ih =>
    cases hn : r.nameText <;> cases hd : r.descText <;>
      cases hp : r.priceText <;> cases hq : r.quantityText <;>
      simp [getCartItemsLoop, extractCartRow, List.filterMap_cons, hn, hd, hp, hq, ih]

/-- Claim C5 (amended): `getCartItems` keeps exactly the rows whose four
sub-element reads succeed: a row whose extraction throws is skipped and the
loop continues with the next row, so one bad row never aborts the read; a
price or quantity text that merely fails to parse does not skip the row —
the row is kept with NaN in that field. -/
theorem getCartItems_skips_bad_rows (rows : List CartRowElem) (h : rows ≠ []) :
    getCartItems rows = .ok (rows.filterMap extractCartRow) ∧
    (∀ r rs, extractCartRow r = none → getCartItemsLoop (r :: rs) = getCartItemsLoop rs) := by
  constructor
  · have hne : rows.isEmpty = false := by
      cases rows with
      | nil => exact absurd rfl h
      | cons a l => rfl
    simp [getCartItems, findElements, hne, getCartItemsLoop_eq_filterMap]
  · intro r rs hr
    have h2 := getCartItemsLoop_eq_filterMap (r :: rs)
    rw [List.filterMap_cons, hr] at h2
    rw [h2, getCartItemsLoop_eq_filterMap rs]

theorem getCartItems_skips_bad_rows_witness :
    getCartItems [c5GoodRow, c5BadRow] =
      .ok ([c5GoodRow, c5BadRow].filterMap extractCartRow) :=
  (getCartItems_skips_bad_rows [c5GoodRow, c5BadRow] (by simp)).1

/-- Claim C5, counterexample to the claim as stated: in a cart with one
fully parseable row and one row whose price text ("N/A") and quantity text
("x") fail to parse, the unparseable row is not skipped — `getCartItems`
returns both rows, the second with NaN price and NaN quantity, not only the
successfully parsed row. -/
theorem getCartItems_keeps_unparseable_row :
    getCartItems [c5GoodRow, c5BadRow] =
      .ok [⟨"Sauce Labs Backpack", "carry.allTheThings()", some (mkRat 2999 100), some 1⟩,
           ⟨"Sauce Labs Onesie", "rib snap infant onesie", none, none⟩] ∧
    getCartItems [c5GoodRow, c5BadRow] ≠
      .ok [⟨"Sauce Labs Backpack", "carry.allTheThings()", some (mkRat 2999 100), some 1⟩] := by
  constructor <;> decide

theorem foldl_jsAdd_real (items : List CartItem)
    (h : ∀ it ∈ items, it.price ≠ none ∧ it.quantity ≠ none) :
    ∀ a : ℚ, items.foldl (fun acc it => jsAdd acc (itemTotal it)) (some a) =
      some (a + (items.map fun it =>
        it.price.getD 0 * ((it.quantity.getD 0 : Int) : ℚ)).sum) := by
  induction items with
  | nil => intro a; simp
  | cons it its ih =>
    intro a
    obtain ⟨p, hp⟩ := Option.ne_none_iff_exists'.mp (h it (by simp)).1
    obtain ⟨q, hq⟩ := Option.ne_none_iff_exists'.mp (h it (by simp)).2
    have h' : ∀ x ∈ its, x.price ≠ none ∧ x.quantity ≠ none :=
      fun x hx => h x (by simp [hx])
    rw [List.foldl_cons, List.map_cons, List.sum_cons]
    have ht : jsAdd (some a) (itemTotal it) = some (a + p * (q : ℚ)) := by
      simp [itemTotal, jsMul, jsAdd, hp, hq]
    simp only [ht]
    rw [ih h' (a + p * (q : ℚ))]
    simp [hp, hq, add_assoc]

theorem expectedSubtotalOf_real (items : List CartItem)
    (h : ∀ it ∈ items, it.price ≠ none ∧ it.quantity ≠ none) :
    expectedSubtotalOf items =
      some ((items.map fun it =>
        it.price.getD 0 * ((it.quantity.getD 0 : Int) : ℚ)).sum) := by
  have := foldl_jsAdd_real items h 0
  simpa [expectedSubtotalOf] using this

/-- Claim C2: `verifyOrderCalculations` returns true if and only if the
parsed subtotal is within 0.01 of `Σ(item.price × item.quantity)` over the
summary items and the parsed total is within 0.01 of `subtotal + tax`, where
the summary is parsed from the page with the labels stripped of every
character other than digits and dots. -/
theorem verifyOrderCalculations_iff (pg : CartPageState) (s : OrderSummary) (sb tx tt : ℚ)
    (hs : getOrderSummary pg = .ok s)
    (hsb : s.subtotal = some sb) (htx : s.tax = some tx) (htt : s.total = some tt)
    (hreal : ∀ it ∈ s.items, it.price ≠ none ∧ it.quantity ≠ none) :
    verifyOrderCalculations pg = .ok true ↔
      (|sb - (s.items.map fun it =>
          it.price.getD 0 * ((it.quantity.getD 0 : Int) : ℚ)).sum| < 1 / 100 ∧
       |tt - (sb + tx)| < 1 / 100) := by
  have hexp := expectedSubtotalOf_real s.items hreal
  simp only [verifyOrderCalculations, hs, hexp, hsb, htx, htt]
  simp [jsAdd, jsSub, jsAbsLt]

theorem verifyOrderCalculations_iff_witness :
    verifyOrderCalculations c2Page = .ok true := by
  refine (verifyOrderCalculations_iff c2Page c2Summary
      (mkRat 2000 100) (mkRat 160 100) (mkRat 2160 100)
      (by decide) rfl rfl rfl (by decide)).mpr ?_
  constructor
  · norm_num [c2Summary, Rat.mkRat_eq_div]
  · norm_num [Rat.mkRat_eq_div]

theorem reduceMaxAcc_spec (xs : List Product) :
    ∀ acc : Product, acc.price ≠ none → (∀ p ∈ xs, p.price ≠ none) →
      (reduceMaxAcc acc xs).price ≠ none ∧
      (∀ pr ∈ acc :: xs, ∀ w a, pr.price = some w →
        (reduceMaxAcc acc xs).price = some a → w ≤ a) ∧
      (acc :: xs).find? (fun pr => decide (pr.price = (reduceMaxAcc acc xs).price)) =
        some (reduceMaxAcc acc xs) := by
  induction xs with
  | nil =>
    intro acc hacc _
    have hred : reduceMaxAcc acc [] = acc := rfl
    rw [hred]
    refine ⟨hacc, ?_, ?_⟩
    · intro pr hpr w a hw ha
      have hpa : pr = acc := by simpa using hpr
      rw [hpa] at hw
      rw [hw] at ha
      exact le_of_eq (Option.some.inj ha)
    · exact List.find?_cons_of_pos _ (by simp)
  | cons p ps ih =>
    intro acc hacc hall
    obtain ⟨a, ha⟩ := Option.ne_none_iff_exists'.mp hacc
    have hpne : p.price ≠ none := hall p (by simp)
    obtain ⟨b, hb⟩ := Option.ne_none_iff_exists'.mp hpne
    have hall' : ∀ q ∈ ps, q.price ≠ none := fun q hq => hall q (by simp [hq])
    by_cases hgt : jsGt p.price acc.price = true
    · have hstep : reduceMaxAcc acc (p :: ps) = reduceMaxAcc p ps := by
        simp [reduceMaxAcc, hgt]
      have hab : a < b := by
        rw [hb, ha] at hgt
        simpa [jsGt] using hgt
      obtain ⟨h1, h2, h3⟩ := ih p hpne hall'
      obtain ⟨m, hm⟩ := Option.ne_none_iff_exists'.mp h1
      have hbm : b ≤ m := h2 p (by simp) b m hb hm
      refine ⟨by rw [hstep]; exact h1, ?_, ?_⟩
      · intro pr hpr w a' hw ha'
        rw [hstep] at ha'
        have ham' : a' = m := by
          rw [ha'] at hm
          exact Option.some.inj hm
        rcases List.mem_cons.mp hpr with hpr1 | hpr2
        · rw [hpr1] at hw
          have hwa : w = a := by
            rw [hw] at ha
            exact Option.some.inj ha
          rw [hwa, ham']
          exact le_of_lt (lt_of_lt_of_le hab hbm)
        · exact h2 pr hpr2 w a' hw ha'
      · rw [hstep]
        have hpredacc : ¬ (decide (acc.price = (reduceMaxAcc p ps).price) = true) := by
          simp only [ha, hm, decide_eq_true_eq, Option.some.injEq]
          exact ne_of_lt (lt_of_lt_of_le hab hbm)
        rw [@List.find?_cons_of_neg _
          (fun pr => decide (pr.price = (reduceMaxAcc p ps).price)) acc (p :: ps) hpredacc]
        exact h3
    · have hstep : reduceMaxAcc acc (p :: ps) = reduceMaxAcc acc ps := by
        simp [reduceMaxAcc, hgt]
      have hba : b ≤ a := by
        rw [hb, ha] at hgt
        simpa [jsGt, not_lt] using hgt
      obtain ⟨h1, h2, h3⟩ := ih acc hacc hall'
      obtain ⟨m, hm⟩ := Option.ne_none_iff_exists'.mp h1
      have ham : a ≤ m := h2 acc (by simp) a m ha hm
      refine ⟨by rw [hstep]; exact h1, ?_, ?_⟩
      · intro pr hpr w a' hw ha'
        rw [hstep] at ha'
        have ha'm : a' = m := by
          rw [ha'] at hm
          exact Option.some.inj hm
        rcases List.mem_cons.mp hpr with hpr1 | hpr2
        · rw [hpr1] at hw
          exact h2 acc (by simp) w a' hw ha'
        · rcases List.mem_cons.mp hpr2 with hpr3 | hpr4
          · rw [hpr3] at hw
            have hwb : w = b := by
              rw [hw] at hb
              exact Option.some.inj hb
            rw [hwb, ha'm]
            exact le_trans hba ham
          · exact h2 pr (by simp [hpr4]) w a' hw ha'
      · rw [hstep]
        by_cases hpa : decide (acc.price = (reduceMaxAcc acc ps).price) = true
        · have hfind : (acc :: ps).find?
              (fun pr => decide (pr.price = (reduceMaxAcc acc ps).price)) = some acc :=
            List.find?_cons_of_pos _ hpa
          have h4 : some acc = some (reduceMaxAcc acc ps) := by
            rw [← hfind, h3]
          rw [@List.find?_cons_of_pos _
            (fun pr => decide (pr.price = (reduceMaxAcc acc ps).price)) acc (p :: ps) hpa]
          exact h4
        · have h3' : ps.find? (fun pr => decide (pr.price = (reduceMaxAcc acc ps).price)) =
              some (reduceMaxAcc acc ps) := by
            rw [@List.find?_cons_of_neg _
              (fun pr => decide (pr.price = (reduceMaxAcc acc ps).price)) acc ps hpa] at h3
            exact h3
          have hane : a ≠ m := by
            intro hEq
            apply hpa
            simp [ha, hm, hEq]
          have hbm : b < m := lt_of_le_of_lt hba (lt_of_le_of_ne ham hane)
          have hpredp : ¬ (decide (p.price = (reduceMaxAcc acc ps).price) = true) := by
            simp only [hb, hm, decide_eq_true_eq, Option.some.injEq]
            exact ne_of_lt hbm
          rw [@List.find?_cons_of_neg _
            (fun pr => decide (pr.price = (reduceMaxAcc acc ps).price)) acc (p :: ps) hpa]
          rw [@List.find?_cons_of_neg _
            (fun pr => decide (pr.price = (reduceMaxAcc acc ps).price)) p ps hpredp]
          exact h3'

theorem reduceMinAcc_spec (xs : List Product) :
    ∀ acc : Product, acc.price ≠ none → (∀ p ∈ xs, p.price ≠ none) →
      (reduceMinAcc acc xs).price ≠ none ∧
      (∀ pr ∈ acc :: xs, ∀ w a, pr.price = some w →
        (reduceMinAcc acc xs).price = some a → a ≤ w) ∧
      (acc :: xs).find? (fun pr => decide (pr.price = (reduceMinAcc acc xs).price)) =
        some (reduceMinAcc acc xs) := by
  induction xs with
  | nil =>
    intro acc hacc _
    have hred : reduceMinAcc acc [] = acc := rfl
    rw [hred]
    refine ⟨hacc, ?_, ?_⟩
    · intro pr hpr w a hw ha
      have hpa : pr = acc := by simpa using hpr
      rw [hpa] at hw
      rw [hw] at ha
      exact le_of_eq (Option.some.inj ha).symm
    · exact List.find?_cons_of_pos _ (by simp)
  | cons p ps ih =>
    intro acc hacc hall
    obtain ⟨a, ha⟩ := Option.ne_none_iff_exists'.mp hacc
    have hpne : p.price ≠ none := hall p (by simp)
    obtain ⟨b, hb⟩ := Option.ne_none_iff_exists'.mp hpne
    have hall' : ∀ q ∈ ps, q.price ≠ none := fun q hq => hall q (by simp [hq])
    by_cases hlt : jsLt p.price acc.price = true
    · have hstep : reduceMinAcc acc (p :: ps) = reduceMinAcc p ps := by
        simp [reduceMinAcc, hlt]
      have hab : b < a := by
        rw [hb, ha] at hlt
        simpa [jsLt] using hlt
      obtain ⟨h1, h2, h3⟩ := ih p hpne hall'
      obtain ⟨m, hm⟩ := Option.ne_none_iff_exists'.mp h1
      have hbm : m ≤ b := h2 p (by simp) b m hb hm
      refine ⟨by rw [hstep]; exact h1, ?_, ?_⟩
      · intro pr hpr w a' hw ha'
        rw [hstep] at ha'
        have ham' : a' = m := by
          rw [ha'] at hm
          exact Option.some.inj hm
        rcases List.mem_cons.mp hpr with hpr1 | hpr2
        · rw [hpr1] at hw
          have hwa : w = a := by
            rw [hw] at ha
            exact Option.some.inj ha
          rw [hwa, ham']
          exact le_of_lt (lt_of_le_of_lt hbm hab)
        · exact h2 pr hpr2 w a' hw ha'
      · rw [hstep]
        have hpredacc : ¬ (decide (acc.price = (reduceMinAcc p ps).price) = true) := by
          simp only [ha, hm, decide_eq_true_eq, Option.some.injEq]
          exact ne_of_gt (lt_of_le_of_lt hbm hab)
        rw [@List.find?_cons_of_neg _
          (fun pr => decide (pr.price = (reduceMinAcc p ps).price)) acc (p :: ps) hpredacc]
        exact h3
    · have hstep : reduceMinAcc acc (p :: ps) = reduceMinAcc acc ps := by
        simp [reduceMinAcc, hlt]
      have hba : a ≤ b := by
        rw [hb, ha] at hlt
        simpa [jsLt, not_lt] using hlt
      obtain ⟨h1, h2, h3⟩ := ih acc hacc hall'
      obtain ⟨m, hm⟩ := Option.ne_none_iff_exists'.mp h1
      have ham : m ≤ a := h2 acc (by simp) a m ha hm
      refine ⟨by rw [hstep]; exact h1, ?_, ?_⟩
      · intro pr hpr w a' hw ha'
        rw [hstep] at ha'
        have ha'm : a' = m := by
          rw [ha'] at hm
          exact Option.some.inj hm
        rcases List.mem_cons.mp hpr with hpr1 | hpr2
        · rw [hpr1] at hw
          exact h2 acc (by simp) w a' hw ha'
        · rcases List.mem_cons.mp hpr2 with hpr3 | hpr4
          · rw [hpr3] at hw
            have hwb : w = b := by
              rw [hw] at hb
              exact Option.some.inj hb
            rw [hwb, ha'm]
            exact le_trans ham hba
          · exact h2 pr (by simp [hpr4]) w a' hw ha'
      · rw [hstep]
        by_cases hpa : decide (acc.price = (reduceMinAcc acc ps).price) = true
        · have hfind : (acc :: ps).find?
              (fun pr => decide (pr.price = (reduceMinAcc acc ps).price)) = some acc :=
            List.find?_cons_of_pos _ hpa
          have h4 : some acc = some (reduceMinAcc acc ps) := by
            rw [← hfind, h3]
          rw [@List.find?_cons_of_pos _
            (fun pr => decide (pr.price = (reduceMinAcc acc ps).price)) acc (p :: ps) hpa]
          exact h4
        · have h3' : ps.find? (fun pr => decide (pr.price = (reduceMinAcc acc ps).price)) =
              some (reduceMinAcc acc ps) := by
            rw [@List.find?_cons_of_neg _
              (fun pr => decide (pr.price = (reduceMinAcc acc ps).price)) acc ps hpa] at h3
            exact h3
          have hane : a ≠ m := by
            intro hEq
            apply hpa
            simp [ha, hm, hEq]
          have hma : m < a := lt_of_le_of_ne ham (fun hEq => hane hEq.symm)
          have hmb : m < b := lt_of_lt_of_le hma hba
          have hpredp : ¬ (decide (p.price = (reduceMinAcc acc ps).price) = true) := by
            simp only [hb, hm, decide_eq_true_eq, Option.some.injEq]
            exact ne_of_gt hmb
          rw [@List.find?_cons_of_neg _
            (fun pr => decide (pr.price = (reduceMinAcc acc ps).price)) acc (p :: ps) hpa]
          rw [@List.find?_cons_of_neg _
            (fun pr => decide (pr.price = (reduceMinAcc acc ps).price)) p ps hpredp]
          exact h3'

/-- Claim C8: `getMostExpensiveProduct` and `getLeastExpensiveProduct`
require a non-empty product list — the no-initial-value reduce throws a
`TypeError` on the empty array — and on every non-empty list of products
with parsed (non-NaN) prices they return the first product attaining the
maximal (respectively minimal) price, because the comparison is strict. -/
theorem mostLeastExpensive_spec :
    (pickMostExpensive [] = .error .typeError ∧
     pickLeastExpensive [] = .error .typeError) ∧
    (∀ rows, getAllProducts rows = .ok [] →
      getMostExpensiveProduct rows = .error .typeError ∧
      getLeastExpensiveProduct rows = .error .typeError) ∧
    (∀ x xs, (pickMostExpensive (x :: xs)).isOk = true ∧
      (pickLeastExpensive (x :: xs)).isOk = true) ∧
    (∀ l r, (∀ p ∈ l, p.price ≠ none) → pickMostExpensive l = .ok r →
      (∀ p ∈ l, ∀ w a, p.price = some w → r.price = some a → w ≤ a) ∧
      l.find? (fun p => decide (p.price = r.price)) = some r) ∧
    (∀ l r, (∀ p ∈ l, p.price ≠ none) → pickLeastExpensive l = .ok r →
      (∀ p ∈ l, ∀ w a, p.price = some w → r.price = some a → a ≤ w) ∧
      l.find? (fun p => decide (p.price = r.price)) = some r) := by
  refine ⟨⟨rfl, rfl⟩, ?_, ?_, ?_, ?_⟩
  · intro rows hrows
    constructor <;>
      simp [getMostExpensiveProduct, getLeastExpensiveProduct, hrows,
        pickMostExpensive, pickLeastExpensive, jsReduceNoInit]
  · intro x xs
    exact ⟨rfl, rfl⟩
  · intro l r hreal hok
    cases l with
    | nil => simp [pickMostExpensive, jsReduceNoInit] at hok
    | cons x xs =>
      have hr : r = reduceMaxAcc x xs := by
        have hpick : pickMostExpensive (x :: xs) = .ok (reduceMaxAcc x xs) := rfl
        rw [hpick] at hok
        exact (Except.ok.inj hok).symm
      obtain ⟨h1, h2, h3⟩ :=
        reduceMaxAcc_spec xs x (hreal x (by simp)) (fun p hp => hreal p (by simp [hp]))
      rw [hr]
      exact ⟨h2, h3⟩
  · intro l r hreal hok
    cases l with
    | nil => simp [pickLeastExpensive, jsReduceNoInit] at hok
    | cons x xs =>
      have hr : r = reduceMinAcc x xs := by
        have hpick : pickLeastExpensive (x :: xs) = .ok (reduceMinAcc x xs) := rfl
        rw [hpick] at hok
        exact (Except.ok.inj hok).symm
      obtain ⟨h1, h2, h3⟩ :=
        reduceMinAcc_spec xs x (hreal x (by simp)) (fun p hp => hreal p (by simp [hp]))
      rw [hr]
      exact ⟨h2, h3⟩

theorem mostLeastExpensive_spec_witness :
    wProducts.find? (fun p => decide (p.price = prodJacket.price)) = some prodJacket ∧
    wProducts.find? (fun p => decide (p.price = prodBikeLight.price)) = some prodBikeLight := by
  constructor
  · exact (mostLeastExpensive_spec.2.2.2.1 wProducts prodJacket
      (by decide) (by decide)).2
  · exact (mostLeastExpensive_spec.2.2.2.2 wProducts prodBikeLight
      (by decide) (by decide)).2

theorem htmlEntityOfSpec_agrees (c : Char) :
    (htmlEntityOfSpec c).data =
      (match htmlEscapeMap c with
       | some rep => rep.data
       | none => [c]) := by
  unfold htmlEntityOfSpec htmlEscapeMap
  split_ifs <;> rfl

theorem escapeHtmlChars_flatMap (l : List Char) :
    escapeHtmlChars l = l.flatMap (fun c => (htmlEntityOfSpec c).data) := by
  induction l with
  | nil => rfl
  | cons c cs ih =>
    rw [List.flatMap_cons]
    cases hm : htmlEscapeMap c with
    | some rep =>
      rw [show escapeHtmlChars (c :: cs) = rep.data ++ escapeHtmlChars cs by
        simp [escapeHtmlChars, hm]]
      rw [ih, htmlEntityOfSpec_agrees c, hm]
    | none =>
      rw [show escapeHtmlChars (c :: cs) = c :: escapeHtmlChars cs by
        simp [escapeHtmlChars, hm]]
      rw [ih, htmlEntityOfSpec_agrees c, hm]
      rfl

/-- Claim C10: every occurrence of the characters &, <, >, double quote and
apostrophe in a test's name, suite name and error text is replaced by its
HTML entity (&amp;, &lt;, &gt;, &quot;, &#039;) before interpolation into
the test cards, no other character of those fields is altered, and the
escaped fields appear verbatim in the generated markup. -/
theorem report_escapes_html :
    (∀ s : String, (escapeHtml s).data =
      s.data.flatMap (fun c => (htmlEntityOfSpec c).data)) ∧
    (∀ env t, List.IsInfix (escapeHtml t.testName).data (buildTestCard env t).data ∧
      List.IsInfix (escapeHtml t.suiteName).data (buildTestCard env t).data) ∧
    (∀ env t e, t.error = some e →
      List.IsInfix (escapeHtml e).data (buildTestCard env t).data) := by
  refine ⟨?_, ?_, ?_⟩
  · intro s
    exact escapeHtmlChars_flatMap s.data
  · intro env t
    constructor
    · exact ⟨cardHead.data,
        (cardBetweenNameSuite ++ escapeHtml t.suiteName ++ cardMid t ++
          (if detailsContent env t = "" then ""
           else "<div class=\"test-details\">" ++ detailsContent env t ++ "</div>") ++
          cardTail).data,
        by simp [buildTestCard, String.data_append]⟩
    · exact ⟨(cardHead ++ escapeHtml t.testName ++ cardBetweenNameSuite).data,
        (cardMid t ++
          (if detailsContent env t = "" then ""
           else "<div class=\"test-details\">" ++ detailsContent env t ++ "</div>") ++
          cardTail).data,
        by simp [buildTestCard, String.data_append]⟩
  · intro env t e he
    have hne : detailsContent env t ≠ "" := by
      intro h0
      have hlen : (detailsContent env t).length = 0 := by rw [h0]; rfl
      rw [detailsContent, errorDetail, he] at hlen
      simp only [String.length_append] at hlen
      have h27 : ("<div class=\"error-message\">" : String).length = 27 := rfl
      omega
    refine ⟨(cardHead ++ escapeHtml t.testName ++ cardBetweenNameSuite ++
        escapeHtml t.suiteName ++ cardMid t ++ "<div class=\"test-details\">" ++
        "<div class=\"error-message\">").data,
      ("</div>" ++ screenshotDetail env t ++ "</div>" ++ cardTail).data, ?_⟩
    unfold buildTestCard
    rw [if_neg hne]
    simp [detailsContent, errorDetail, he, String.data_append]

theorem report_escapes_html_witness :
    List.IsInfix (escapeHtml "expected <ok> & got \"err\"").data
      (buildTestCard wFsEnv wTest).data :=
  report_escapes_html.2.2 wFsEnv wTest "expected <ok> & got \"err\"" rfl
